import Mathlib

/-
Verification development for the form-annotation rendering engine.

The embedding models the two source files of the repository:
  * renderer/render.js   — the universal annotation-driven renderer
    (path resolver, transform stage, value formatter, condition evaluator,
    native-field and coordinate placement, render entry point), and
  * the 1040-specific pipeline (its zero-suppressing formatCurrency).

JavaScript dynamic values are modelled by the inductive `JVal`
(null, undefined, boolean, number, string, array, object).  Numbers are
modelled as rationals; only finite, decimal-representable numbers occur in
the repository's data flow, so IEEE-754 artefacts (NaN/Infinity inputs,
rounding of non-representable values) are outside the model and noted where
relevant.  Strings are modelled as `List Char` (plus `String` at the data
structure surface).  Side effects (console output, pdf-lib mutations) are
made explicit: placement is a list of emitted operations, `console.warn`
is an accumulated warning list, and file/PDF I/O — excluded collaborators
per the spec — is represented by already-parsed structures.
-/

set_option maxRecDepth 4096

/-- Model of a JavaScript runtime value as it occurs in this program:
JSON data documents plus the `undefined` that property lookups produce.
Objects are association lists with unique keys (JS object literals with
duplicate keys keep only the last one; all objects in this program have
unique keys).  Functions and reference identity are outside the model. -/
inductive JVal where
  | null : JVal
  | undef : JVal
  | bool : Bool → JVal
  | num : ℚ → JVal
  | str : List Char → JVal
  | arr : List JVal → JVal
  | obj : List (String × JVal) → JVal

/-- JS `value === null || value === undefined` — the nullish test used by
`getNestedValue`'s walk loop. -/
def isNullish : JVal → Bool
  | JVal.null => true
  | JVal.undef => true
  | _ => false

/-- JS `value ?? defaultValue`. -/
def jsCoalesce (v d : JVal) : JVal :=
  if isNullish v then d else v

/-- JS default-parameter behaviour: an `undefined` argument is replaced by
the declared default (`null` for `getNestedValue`'s `defaultValue`). -/
def jsOrNull : JVal → JVal
  | JVal.undef => JVal.null
  | v => v

/-- JS truthiness (`Boolean(value)`).  The model has no NaN number value,
the one other falsy case in JS. -/
def jsTruthy : JVal → Bool
  | JVal.null => false
  | JVal.undef => false
  | JVal.bool b => b
  | JVal.num q => decide (q ≠ 0)
  | JVal.str s => decide (s ≠ [])
  | JVal.arr _ => true
  | JVal.obj _ => true

/-- Rational addition for the model, written through `mkRat` so that
closed terms evaluate definitionally (the ambient library's `Rat.add`,
`Rat.mul`, `Rat.sub` and `Rat.div` are `@[irreducible]`).
`qAdd_eq_add` below certifies it against the standard operation. -/
def qAdd (a b : ℚ) : ℚ :=
  mkRat (a.num * b.den + b.num * a.den) (a.den * b.den)

/-- Rational multiplication through `mkRat` (see `qAdd`). -/
def qMul (a b : ℚ) : ℚ :=
  mkRat (a.num * b.num) (a.den * b.den)

/-- Rational subtraction through `mkRat` (see `qAdd`). -/
def qSub (a b : ℚ) : ℚ :=
  qAdd a (-b)

/-- Division of a rational by a positive natural constant (the only
divisions the renderer performs) through `mkRat` (see `qAdd`). -/
def qDivN (q : ℚ) (n : Nat) : ℚ :=
  mkRat q.num (q.den * n)

/-- A natural number as a rational, through `mkRat` (see `qAdd`). -/
def natToQ (n : Nat) : ℚ :=
  mkRat (Int.ofNat n) 1

/-- `10 ^ d` as a rational, through `mkRat` (see `qAdd`). -/
def pow10 (d : Nat) : ℚ :=
  natToQ (10 ^ d)

/-- Numeric value of a (canonical) digit string. -/
def digitsToNat (s : List Char) : Nat :=
  s.foldl (fun n c => n * 10 + (c.toNat - '0'.toNat)) 0

/-- A canonical JS array index: nonempty, all digits, no leading zero
(except "0" itself).  `arr["07"]` in JS is a plain property lookup and
yields `undefined`; only canonical numeric strings index the elements. -/
def canonicalIndex (k : List Char) : Option Nat :=
  if k ≠ [] ∧ k.all Char.isDigit ∧ (k = ['0'] ∨ k.head? ≠ some '0') then
    some (digitsToNat k)
  else none

/-- JS property access `value[key]` as used by the resolver's walk:
object → own property (or `undefined`), array → element at a canonical
index, or its `length`, otherwise `undefined`.  Auto-boxed primitive
properties (e.g. string `.length`) are outside the model; no path in this
program indexes into primitives. -/
def getProp (v : JVal) (k : List Char) : JVal :=
  match v with
  | JVal.obj kvs =>
      match kvs.find? (fun kv => kv.fst == String.mk k) with
      | some kv => kv.snd
      | none => JVal.undef
  | JVal.arr xs =>
      if k = "length".data then JVal.num (natToQ xs.length)
      else
        match canonicalIndex k with
        | some i => (xs[i]?).getD JVal.undef
        | none => JVal.undef
  | _ => JVal.undef

/-- The key walk of `getNestedValue` (render.js lines 31-38): before each
key, a null/undefined value short-circuits to the default; after the last
key the result is `value ?? defaultValue`. -/
def walkKeys (v : JVal) (keys : List (List Char)) (d : JVal) : JVal :=
  match keys with
  | [] => jsCoalesce v d
  | k :: ks =>
      if isNullish v then d else walkKeys (getProp v k) ks d

/-- The regex replace `pathStr.replace(/\[(\d+)\]/g, ".$1")`: every
bracketed digit group `[123]` becomes `.123`; a `[` not opening such a
group is kept verbatim.  Scanning is left to right, non-overlapping.
Fuel only drives the termination argument: every step consumes at least
one character, so the wrapper's `length + 1` is never exhausted. -/
def replaceIdxFuel : Nat → List Char → List Char
  | 0, s => s
  | _ + 1, [] => []
  | fuel + 1, c :: rest =>
      if c = '[' then
        match rest.takeWhile Char.isDigit, rest.dropWhile Char.isDigit with
        | d :: ds, ']' :: rest2 => '.' :: ((d :: ds) ++ replaceIdxFuel fuel rest2)
        | _, _ => c :: replaceIdxFuel fuel rest
      else c :: replaceIdxFuel fuel rest

/-- The regex replace `pathStr.replace(/\[(\d+)\]/g, ".$1")`. -/
def replaceIdx (s : List Char) : List Char :=
  replaceIdxFuel (s.length + 1) s

/-- JS `s.split(".")`: split at every dot; adjacent dots give empty parts. -/
def splitDot : List Char → List (List Char)
  | [] => [[]]
  | '.' :: rest => [] :: splitDot rest
  | c :: rest =>
      match splitDot rest with
      | [] => [[c]]
      | p :: ps => (c :: p) :: ps

/-- The wildcard marker `[*]`. -/
def wcL : List Char := ['[', '*', ']']

/-- JS `pathStr.split("[*]")`: split at every (leftmost, non-overlapping)
occurrence of the `[*]` marker. -/
def splitWC : List Char → List (List Char)
  | [] => [[]]
  | '[' :: '*' :: ']' :: rest => [] :: splitWC rest
  | c :: rest =>
      match splitWC rest with
      | [] => [[c]]
      | p :: ps => (c :: p) :: ps

/-- JS `rest.startsWith(".") ? rest.slice(1) : rest` — strip one leading
dot from the wildcard remainder. -/
def stripDot (r : List Char) : List Char :=
  if r.head? = some '.' then r.tail else r

/-- `getNestedValue` restricted to a path without the `[*]` marker: the
`!pathStr` guard, then the replace/split/walk pipeline (render.js lines
16-17 and 29-38).  `getNestedValueL` below dispatches the wildcard branch;
its recursive calls all receive pieces of a `[*]`-split, which never
contain the marker (`splitWC_mem_simple`), so the recursion bottoms out
here exactly as it does in the source. -/
def getNestedValueSimple (objv : JVal) (p : List Char) (d : JVal) : JVal :=
  if p = [] then d
  else walkKeys objv (splitDot (replaceIdx p)) d

/-- `getNestedValue(obj, pathStr, defaultValue)` from render.js lines
16-39.  The wildcard branch takes the text before the first `[*]` and the
text between the first and second `[*]` (the destructuring
`const [arrayPath, rest] = pathStr.split("[*]")`), resolves the prefix
with default `[]`, bails out to the caller's default when that is not an
array, and maps the remainder (leading dot stripped; empty remainder maps
the identity) over the elements with the inner default `null`. -/
def getNestedValueL (objv : JVal) (p : List Char) (d : JVal) : JVal :=
  if p = [] then d
  else
    match splitWC p with
    | arrayPath :: rest :: _ =>
        match getNestedValueSimple objv arrayPath (JVal.arr []) with
        | JVal.arr xs =>
            let restPath := stripDot rest
            JVal.arr (xs.map fun item =>
              if restPath ≠ [] then getNestedValueSimple item restPath JVal.null
              else item)
        | _ => d
    | _ => getNestedValueSimple objv p d

/-- `getNestedValue` at the `String` surface. -/
def getNestedValue (objv : JVal) (p : String) (d : JVal) : JVal :=
  getNestedValueL objv p.data d

/-- JS `String.prototype.trim()` (ASCII whitespace; the exotic Unicode
space classes do not occur in this program's data). -/
def trimL (s : List Char) : List Char :=
  ((s.dropWhile Char.isWhitespace).reverse.dropWhile Char.isWhitespace).reverse

/-- Decimal digit characters of a natural number. -/
def natDigits (n : Nat) : List Char :=
  Nat.toDigits 10 n

/-- `String(x).padStart(2, "0")` for day/month numbers. -/
def pad2 (n : Nat) : List Char :=
  if n < 10 then '0' :: natDigits n else natDigits n

/-- Floor of a rational, computably. -/
def ratFloor (q : ℚ) : Int :=
  q.num.fdiv q.den

/-- Smallest exponent `k` (searched up to the given fuel) with
`q * 10 ^ k` integral — the length of `q`'s finite decimal expansion. -/
def findExp (k fuel : Nat) (q : ℚ) : Option Nat :=
  match fuel with
  | 0 => none
  | fuel + 1 =>
      if (qMul q (pow10 k)).den = 1 then some k else findExp (k + 1) fuel q

/-- Decimal rendering of a nonnegative rational with a finite decimal
expansion, in JS `String(number)` style (shortest form, no trailing
zeros).  Rationals without a short finite expansion do not arise from
JS numbers; they fall back to the raw fraction rendering. -/
def numToStrAbs (q : ℚ) : List Char :=
  if q.den = 1 then natDigits q.num.toNat
  else
    match findExp 1 40 q with
    | some k =>
        let s := natDigits (qMul q (pow10 k)).num.toNat
        let s := List.replicate (k + 1 - s.length) '0' ++ s
        s.take (s.length - k) ++ '.' :: s.drop (s.length - k)
    | none => (toString q).data

/-- JS `String(number)` for the model's (finite, decimal) numbers. -/
def numToStr (q : ℚ) : List Char :=
  if q < 0 then '-' :: numToStrAbs (-q) else numToStrAbs q

mutual

/-- JS `String(value)`.  Array elements stringify recursively, with
`null`/`undefined` elements becoming empty (Array.prototype.join with
separator ","). -/
def jsToString : JVal → List Char
  | JVal.null => "null".data
  | JVal.undef => "undefined".data
  | JVal.bool true => "true".data
  | JVal.bool false => "false".data
  | JVal.num q => numToStr q
  | JVal.str s => s
  | JVal.arr xs => List.intercalate [','] (jsToStringElems xs)
  | JVal.obj _ => "[object Object]".data

/-- The per-element strings of `Array.prototype.join`: `null` and
`undefined` elements become empty. -/
def jsToStringElems : List JVal → List (List Char)
  | [] => []
  | JVal.null :: vs => [] :: jsToStringElems vs
  | JVal.undef :: vs => [] :: jsToStringElems vs
  | v :: vs => jsToString v :: jsToStringElems vs

end

/-- JS `parseFloat` on a string: skip leading whitespace, optional sign,
then the longest `digits [. digits]` prefix; `none` models NaN.
Exponent, hexadecimal and `Infinity` forms do not occur in this
program's data and are outside the model. -/
def jsParseFloat (s : List Char) : Option ℚ :=
  let t := s.dropWhile Char.isWhitespace
  let (neg, u) : Bool × List Char :=
    match t with
    | '-' :: r => (true, r)
    | '+' :: r => (false, r)
    | _ => (false, t)
  let ip := u.takeWhile Char.isDigit
  match u.dropWhile Char.isDigit with
  | '.' :: v =>
      let fp := v.takeWhile Char.isDigit
      if ip = [] ∧ fp = [] then none
      else
        let val := qAdd (natToQ (digitsToNat ip)) (mkRat (Int.ofNat (digitsToNat fp)) (10 ^ fp.length))
        some (if neg then -val else val)
  | _ => if ip = [] then none else some (if neg then -(natToQ (digitsToNat ip)) else natToQ (digitsToNat ip))

/-- JS `parseFloat(value)` for an arbitrary value: numbers survive the
implicit String round-trip unchanged; everything else is stringified and
prefix-parsed. -/
def jsParseFloatVal (v : JVal) : Option ℚ :=
  match v with
  | JVal.num q => some q
  | _ => jsParseFloat (jsToString v)

/-- JS `Number(string)` (used by `isNaN(string)`): whitespace-only is 0,
otherwise the whole string must be a signed decimal literal; `none`
models NaN.  Exponent/hex/`Infinity` forms are outside the model. -/
def jsNumberOfStr (s : List Char) : Option ℚ :=
  let t := trimL s
  if t = [] then some 0
  else
    let (neg, u) : Bool × List Char :=
      match t with
      | '-' :: r => (true, r)
      | '+' :: r => (false, r)
      | _ => (false, t)
    let ip := u.takeWhile Char.isDigit
    match u.dropWhile Char.isDigit with
    | [] => if ip = [] then none else some (if neg then -(natToQ (digitsToNat ip)) else natToQ (digitsToNat ip))
    | '.' :: v =>
        let fp := v.takeWhile Char.isDigit
        if v.dropWhile Char.isDigit = [] ∧ ¬(ip = [] ∧ fp = []) then
          let val := qAdd (natToQ (digitsToNat ip)) (mkRat (Int.ofNat (digitsToNat fp)) (10 ^ fp.length))
          some (if neg then -val else val)
        else none
    | _ => none

/-- Thousands grouping on a reversed digit string: a comma after every
three digits (scanning from the least significant end). -/
def groupThousandsRev : List Char → List Char
  | a :: b :: c :: d :: rest => a :: b :: c :: ',' :: groupThousandsRev (d :: rest)
  | l => l

/-- Insert `en-US` thousands separators into an integer digit string. -/
def groupThousands (s : List Char) : List Char :=
  (groupThousandsRev s.reverse).reverse

/-- `num.toLocaleString("en-US", {minimumFractionDigits: d,
maximumFractionDigits: d})` for a nonnegative number: round to `d`
fraction digits (half away from zero, ECMA-402's default), group the
integer digits by thousands, and append the fraction part when `d > 0`. -/
def groupFmtAbs (q : ℚ) (d : Nat) : List Char :=
  let scaled := ratFloor (qAdd (qMul q (pow10 d)) (mkRat 1 2))
  let s := natDigits scaled.toNat
  let s := List.replicate (d + 1 - s.length) '0' ++ s
  groupThousands (s.take (s.length - d)) ++ (if d = 0 then [] else '.' :: s.drop (s.length - d))

/-- `num.toLocaleString("en-US", ...)` with fixed fraction digits. -/
def groupFmt (q : ℚ) (d : Nat) : List Char :=
  if q < 0 then '-' :: groupFmtAbs (-q) d else groupFmtAbs q d

/-- JS `transform` stage falsiness/`||` helper for strings: `a || b`. -/
def jsOrStr (o : Option String) (dflt : String) : String :=
  match o with
  | some s => if s = "" then dflt else s
  | none => dflt

/-- JS `a || b` for an optional numeric option (0 is falsy). -/
def jsOrNum (o : Option ℚ) (dflt : ℚ) : ℚ :=
  match o with
  | some q => if q = 0 then dflt else q
  | none => dflt

/-- `applyTransform(value, transform)` from render.js lines 44-64.
`!transform` (absent or empty) and unrecognized names pass the value
through; `sum` folds `parseFloat(v) || 0` over an array. -/
def applyTransform (value : JVal) (transform : Option String) : JVal :=
  match transform with
  | none => value
  | some t =>
      if t = "" then value
      else if t = "uppercase" then JVal.str ((jsToString value).map Char.toUpper)
      else if t = "lowercase" then JVal.str ((jsToString value).map Char.toLower)
      else if t = "trim" then JVal.str (trimL (jsToString value))
      else if t = "sum" then
        match value with
        | JVal.arr xs => JVal.num (xs.foldl (fun s v => qAdd s ((jsParseFloatVal v).getD 0)) 0)
        | _ => value
      else if t = "count" then
        match value with
        | JVal.arr xs => JVal.num (natToQ xs.length)
        | _ => JVal.num 0
      else value

/-- Rendering options of one field (`field.format`); absent entries model
absent JS object properties. -/
structure FieldFormat where
  decimalPlaces : Option Nat := none
  currencySymbol : Bool := false
  align : Option String := none
  fontSize : Option ℚ := none
  checkMark : Option String := none
  dateFormat : Option String := none

/-- The empty format object (`field.format || {}`). -/
def emptyFormat : FieldFormat := {}

/-- Position rectangle of a field (origin bottom-left, points). -/
structure Pos where
  x : ℚ := 0
  y : ℚ := 0
  width : ℚ := 0
  height : ℚ := 0

/-- `field.binding`: data path plus optional transform, condition and
fallback.  An absent fallback is JS `undefined`, which the default
parameter of `getNestedValue` turns into `null`. -/
structure Binding where
  path : String := ""
  transform : Option String := none
  condition : Option String := none
  fallback : JVal := JVal.undef

/-- One field definition of the annotation document (named `FieldDef` here
only because Mathlib already owns the name `Field`). -/
structure FieldDef where
  id : String := ""
  type : String := "text"
  page : Int := 1
  position : Pos := {}
  binding : Binding := {}
  format : Option FieldFormat := none
  nativeFieldId : Option String := none

/-- `field.format || {}`. -/
def fmtOf (f : FieldDef) : FieldFormat :=
  f.format.getD emptyFormat

/-- JS truthiness of `field.nativeFieldId` (absent or empty string is
falsy). -/
def hasNativeB (f : FieldDef) : Bool :=
  match f.nativeFieldId with
  | some s => decide (s ≠ "")
  | none => false

/-- The declared native field identifier (only consulted when
`hasNativeB` holds). -/
def nativeIdOf (f : FieldDef) : String :=
  f.nativeFieldId.getD ""

/-- The early guard of `formatValue`:
`value === null || value === undefined || value === ""`. -/
def isEmptyInput : JVal → Bool
  | JVal.null => true
  | JVal.undef => true
  | JVal.str [] => true
  | _ => false

/-- Partial model of `new Date(value)`: ISO `YYYY-MM-DD` strings parse to
their calendar components; everything else is unparseable (`none` models
an Invalid Date).  Timestamp numbers and locale/timezone effects of the
JS Date object are outside the model; no claim exercises them. -/
def dateParse (v : JVal) : Option (Nat × Nat × Nat) :=
  match v with
  | JVal.str [y1, y2, y3, y4, '-', m1, m2, '-', d1, d2] =>
      if [y1, y2, y3, y4, m1, m2, d1, d2].all Char.isDigit then
        some (digitsToNat [y1, y2, y3, y4], digitsToNat [m1, m2], digitsToNat [d1, d2])
      else none
  | _ => none

/-- Whether the first list is an initial run of the second (JS
`startsWith` on character lists). -/
def leadsWith : List Char → List Char → Bool
  | [], _ => true
  | _ :: _, [] => false
  | a :: as, b :: bs => a == b && leadsWith as bs

/-- Replace the first occurrence of `pat` in `s` by `repl` (JS
`String.prototype.replace` with a plain-string pattern).  Fuel only
drives termination and is never exhausted at `length + 1`. -/
def replaceFirstFuel (pat repl : List Char) : Nat → List Char → List Char
  | 0, s => s
  | _ + 1, [] => []
  | fuel + 1, c :: rest =>
      if leadsWith pat (c :: rest) ∧ pat ≠ [] then repl ++ (c :: rest).drop pat.length
      else c :: replaceFirstFuel pat repl fuel rest

/-- JS `s.replace(pat, repl)` for a plain-string pattern. -/
def replaceFirst (pat repl s : List Char) : List Char :=
  replaceFirstFuel pat repl (s.length + 1) s

/-- `formatValue(value, field)` from render.js lines 69-125: the early
empty-input guard, then per-type formatting (currency/number via
parseFloat and en-US grouping, ssn/ein digit reformatting, date pattern
substitution, checkbox boolean coercion, default stringification). -/
def formatValue (value : JVal) (field : FieldDef) : JVal :=
  if isEmptyInput value then JVal.str []
  else
    let fmt := fmtOf field
    if field.type = "currency" then
      match jsParseFloatVal value with
      | none => JVal.str []
      | some num =>
          let decimals := fmt.decimalPlaces.getD 2
          let formatted := groupFmt num decimals
          JVal.str (if fmt.currencySymbol then '$' :: formatted else formatted)
    else if field.type = "number" then
      match jsParseFloatVal value with
      | none => JVal.str []
      | some n => JVal.str (groupFmt n (fmt.decimalPlaces.getD 0))
    else if field.type = "ssn" then
      let digits := (jsToString value).filter Char.isDigit
      JVal.str (if digits.length = 9 then
        digits.take 3 ++ '-' :: ((digits.drop 3).take 2 ++ '-' :: digits.drop 5)
      else digits)
    else if field.type = "ein" then
      let einDigits := (jsToString value).filter Char.isDigit
      JVal.str (if einDigits.length = 9 then einDigits.take 2 ++ '-' :: einDigits.drop 2
        else einDigits)
    else if field.type = "date" then
      match dateParse value with
      | none => JVal.str (jsToString value)
      | some (yyyy, mm, dd) =>
          let pat := (jsOrStr fmt.dateFormat "MM/DD/YYYY").data
          JVal.str (replaceFirst "YYYY".data (natDigits yyyy)
            (replaceFirst "DD".data (pad2 dd)
              (replaceFirst "MM".data (pad2 mm) pat)))
    else if field.type = "checkbox" then JVal.bool (jsTruthy value)
    else JVal.str (jsToString value)

/-- `formatCurrency(value)` from the 1040-specific pipeline: the same
empty-input guard and en-US two-decimal grouping, but a value parsing to
exactly zero is suppressed to the empty string. -/
def formatCurrency (value : JVal) : List Char :=
  if isEmptyInput value then []
  else
    match jsParseFloatVal value with
    | none => []
    | some num => if num = 0 then [] else groupFmt num 2

/-- One comparison operator attempt of the condition regex
`(===|!==|==|!=)` at a given point of the string: the alternatives are
tried in the regex's order, and an alternative only succeeds when at
least one character follows it (the regex continues `\s*(.+)$`, and its
backtracking falls through to the next alternative otherwise — e.g.
`"a==="` matches with operator `==` and right-hand side `=`). -/
def tryOps (rest : List Char) : Option (List Char × List Char) :=
  if leadsWith "===".data rest ∧ rest.drop 3 ≠ [] then some ("===".data, rest.drop 3)
  else if leadsWith "!==".data rest ∧ rest.drop 3 ≠ [] then some ("!==".data, rest.drop 3)
  else if leadsWith "==".data rest ∧ rest.drop 2 ≠ [] then some ("==".data, rest.drop 2)
  else if leadsWith "!=".data rest ∧ rest.drop 2 ≠ [] then some ("!=".data, rest.drop 2)
  else none

/-- The scan of `condition.match(/^(.+?)\s*(===|!==|==|!=)\s*(.+)$/)`:
the lazy `(.+?)` grows the path operand one character at a time (starting
at one character), `\s*` greedily skips whitespace (no operator begins
with whitespace, so no backtracking arises there), and `tryOps` decides
the operator.  The third capture is the text after the operator; the
caller trims it, which coincides with the regex's `\s*(.+)$` split. -/
def matchCondAux : List Char → List Char → Option (List Char × List Char × List Char)
  | acc, rest =>
      match tryOps (rest.dropWhile Char.isWhitespace) with
      | some (op, after) => some (acc.reverse, op, after)
      | none =>
          match rest with
          | [] => none
          | c :: rest2 => matchCondAux (c :: acc) rest2

/-- The condition regex match: `none` models "no operator matched". -/
def matchCond (s : List Char) : Option (List Char × List Char × List Char) :=
  match s with
  | [] => none
  | c :: rest => matchCondAux [c] rest

/-- JS strict equality `===` restricted to the comparisons
`evaluateCondition` performs: the right operand is always a parsed
literal (boolean, null, number or string), so object/array operands —
which JS compares by reference — land in the catch-all `false`. -/
def jsStrictEq : JVal → JVal → Bool
  | JVal.null, JVal.null => true
  | JVal.undef, JVal.undef => true
  | JVal.bool a, JVal.bool b => a == b
  | JVal.num a, JVal.num b => decide (a = b)
  | JVal.str a, JVal.str b => a == b
  | _, _ => false

/-- The literal parsing of `evaluateCondition` (render.js lines 140-144):
`true`/`false`/`null` barewords, then `!isNaN(expected)` (a `Number`
conversion) guarding `parseFloat`.  The one value the guard admits that
`parseFloat` cannot parse is the empty string, whose `parseFloat` is NaN;
NaN is modelled by `undef`, which `jsStrictEq` never equates with a
resolved value (the resolver never returns `undef` through a `null`
default), matching NaN's equality behaviour. -/
def parseCondLiteral (e : List Char) : JVal :=
  if e = "true".data then JVal.bool true
  else if e = "false".data then JVal.bool false
  else if e = "null".data then JVal.null
  else if (jsNumberOfStr e).isSome then
    match jsParseFloat e with
    | some q => JVal.num q
    | none => JVal.undef
  else JVal.str e

/-- `evaluateCondition(condition, data)` from render.js lines 130-156:
absent or empty conditions are true; a string with no operator match is
true; otherwise the trimmed path operand is resolved (default `null`),
the trimmed right operand parsed as a literal, and the four operators
collapse to strict equality or its negation. -/
def evaluateCondition (condition : Option String) (data : JVal) : Bool :=
  match condition with
  | none => true
  | some c =>
      if c = "" then true
      else
        match matchCond c.data with
        | none => true
        | some (pathStr, op, expectedStr) =>
            let actualValue := getNestedValueL data (trimL pathStr) JVal.null
            let expected := parseCondLiteral (trimL expectedStr)
            if op = "===".data ∨ op = "==".data then jsStrictEq actualValue expected
            else if op = "!==".data ∨ op = "!=".data then ! jsStrictEq actualValue expected
            else true

/-- The per-field value pipeline shared by both placement strategies:
resolve (`binding.path` with `binding.fallback`, an absent fallback being
`undefined` and hence the parameter default `null`), transform, format. -/
def resolveFormatted (data : JVal) (f : FieldDef) : JVal :=
  formatValue (applyTransform (getNestedValueL data f.binding.path.data (jsOrNull f.binding.fallback)) f.binding.transform) f

/-- `formattedValue === ""` (strict, so only the empty string). -/
def isEmptyStr : JVal → Bool
  | JVal.str [] => true
  | _ => false

/-- `formattedValue === true` (strict, so only the boolean). -/
def isTrueB : JVal → Bool
  | JVal.bool true => true
  | _ => false

/-- The kind of an interactive field on the target document, as pdf-lib
classifies it: `getCheckBox` succeeds exactly on checkbox-class fields,
`getTextField` exactly on text-class fields. -/
inductive NKind where
  | checkbox : NKind
  | text : NKind
  | radio : NKind
  | dropdown : NKind
deriving DecidableEq

/-- A mutation issued to the target document's interactive form.
`uncheck` is part of pdf-lib's checkbox interface; the renderer never
issues it (claimed and proved below). -/
inductive NativeOp where
  | check : String → NativeOp
  | uncheck : String → NativeOp
  | setText : String → String → NativeOp
deriving DecidableEq

/-- The target document: page count, text measuring (the embedded font's
`widthOfTextAtSize`, an external collaborator, kept abstract as a
function), and the interactive form's fields by identifier and kind. -/
structure PdfDoc where
  numPages : Nat
  widthOf : String → ℚ → ℚ
  formFields : List (String × NKind)

/-- Look up an interactive field's kind by identifier. -/
def lookupForm (form : List (String × NKind)) (id : String) : Option NKind :=
  (form.find? (fun kv => kv.fst == id)).map (fun kv => kv.snd)

/-- The message of the `console.warn` in `fillWithNativeFields`'s catch
(the thrown error's own message text is outside the model). -/
def warnNative (id : String) : String :=
  "Could not fill native field " ++ id

/-- Accumulator of `fillWithNativeFields`: the two counters it returns,
plus the explicit effect trace (form mutations and warnings). -/
structure NativeResult where
  filledCount : Nat
  fallbackCount : Nat
  ops : List NativeOp
  warnings : List String
deriving DecidableEq

/-- The empty `NativeResult` (loop entry). -/
def emptyNative : NativeResult :=
  { filledCount := 0, fallbackCount := 0, ops := [], warnings := [] }

/-- One iteration of the `fillWithNativeFields` loop (render.js lines
243-281): condition check; fields without a truthy `nativeFieldId` count
as fallback; empty formatted values of non-checkbox fields are skipped;
a checkbox is checked only when the formatted value is strictly `true`;
text-class placement strips dashes for `ssn` fields; a failed
`getCheckBox`/`getTextField` lookup is caught and warned. -/
def processNativeField (form : List (String × NKind)) (data : JVal) (acc : NativeResult) (f : FieldDef) : NativeResult :=
  if ! evaluateCondition f.binding.condition data then acc
  else if ! hasNativeB f then { acc with fallbackCount := acc.fallbackCount + 1 }
  else
    let formattedValue := resolveFormatted data f
    if isEmptyStr formattedValue ∧ f.type ≠ "checkbox" then acc
    else if f.type = "checkbox" then
      if isTrueB formattedValue then
        match lookupForm form (nativeIdOf f) with
        | some NKind.checkbox =>
            { acc with ops := acc.ops ++ [NativeOp.check (nativeIdOf f)],
                       filledCount := acc.filledCount + 1 }
        | _ => { acc with warnings := acc.warnings ++ [warnNative (nativeIdOf f)] }
      else acc
    else
      match lookupForm form (nativeIdOf f) with
      | some NKind.text =>
          let valueToSet :=
            if f.type = "ssn" then String.mk ((jsToString formattedValue).filter (fun c => c ≠ '-'))
            else String.mk (jsToString formattedValue)
          { acc with ops := acc.ops ++ [NativeOp.setText (nativeIdOf f) valueToSet],
                     filledCount := acc.filledCount + 1 }
      | _ => { acc with warnings := acc.warnings ++ [warnNative (nativeIdOf f)] }

/-- `fillWithNativeFields` over a plain field list. -/
def fillNativeList (form : List (String × NKind)) (data : JVal) (fs : List FieldDef) : NativeResult :=
  fs.foldl (processNativeField form data) emptyNative

/-- The annotation document: its ordered field list.  The form metadata
block is descriptive only and never consumed by the renderer. -/
structure AnnDoc where
  fields : List FieldDef

/-- `fillWithNativeFields(pdfDoc, annotation, data)` from render.js lines
238-284. -/
def fillWithNativeFields (form : List (String × NKind)) (ann : AnnDoc) (data : JVal) : NativeResult :=
  fillNativeList form data ann.fields

/-- A text draw on a page (`page.drawText`): 0-based page index, the
drawn string, origin, and font size (colour is the constant black). -/
structure DrawOp where
  page : Nat
  text : String
  x : ℚ
  y : ℚ
  size : ℚ
deriving DecidableEq

/-- The message of the missing-page `console.warn` in
`fillWithCoordinates`. -/
def warnPage (f : FieldDef) : String :=
  "Page " ++ toString f.page ++ " not found for field " ++ f.id

/-- Accumulator of `fillWithCoordinates`: its counter plus the explicit
effect trace. -/
structure CoordResult where
  filledCount : Nat
  ops : List DrawOp
  warnings : List String
deriving DecidableEq

/-- The empty `CoordResult` (loop entry). -/
def emptyCoord : CoordResult :=
  { filledCount := 0, ops := [], warnings := [] }

/-- One iteration of the `fillWithCoordinates` loop (render.js lines
167-230): condition check; empty formatted values of non-checkbox fields
are skipped; a missing page (1-indexed) warns and skips; a checkbox
draws its mark glyph centred in the rectangle only when the formatted
value is strictly `true`; text draws at the alignment-dependent origin,
vertically centred, in `format.fontSize || 10`. -/
def processCoordField (doc : PdfDoc) (data : JVal) (acc : CoordResult) (f : FieldDef) : CoordResult :=
  if ! evaluateCondition f.binding.condition data then acc
  else
    let formattedValue := resolveFormatted data f
    if isEmptyStr formattedValue ∧ f.type ≠ "checkbox" then acc
    else if ¬ (1 ≤ f.page ∧ f.page ≤ (doc.numPages : Int)) then
      { acc with warnings := acc.warnings ++ [warnPage f] }
    else
      let pageIdx := (f.page - 1).toNat
      let fmt := fmtOf f
      let fontSize := jsOrNum fmt.fontSize 10
      if f.type = "checkbox" then
        if isTrueB formattedValue then
          let checkMark := jsOrStr fmt.checkMark "X"
          let centerX := qAdd f.position.x (qDivN f.position.width 2)
          let centerY := qAdd f.position.y (qDivN f.position.height 2)
          let op : DrawOp :=
            { page := pageIdx, text := checkMark,
              x := qSub centerX (qDivN fontSize 4),
              y := qSub centerY (qDivN fontSize 3), size := fontSize }
          { acc with ops := acc.ops ++ [op], filledCount := acc.filledCount + 1 }
        else acc
      else
        let text := String.mk (jsToString formattedValue)
        let textWidth := doc.widthOf text fontSize
        let textX :=
          if fmt.align = some "right" then qSub (qSub (qAdd f.position.x f.position.width) textWidth) 2
          else if fmt.align = some "center" then qAdd f.position.x (qDivN (qSub f.position.width textWidth) 2)
          else qAdd f.position.x 2
        let op : DrawOp :=
          { page := pageIdx, text := text, x := textX,
            y := qAdd f.position.y (qDivN (qSub f.position.height fontSize) 2),
            size := fontSize }
        { acc with ops := acc.ops ++ [op], filledCount := acc.filledCount + 1 }

/-- `fillWithCoordinates` over a plain field list. -/
def fillCoordList (doc : PdfDoc) (data : JVal) (fs : List FieldDef) : CoordResult :=
  fs.foldl (processCoordField doc data) emptyCoord

/-- `fillWithCoordinates(pdfDoc, annotation, data)` from render.js lines
161-233. -/
def fillWithCoordinates (doc : PdfDoc) (ann : AnnDoc) (data : JVal) : CoordResult :=
  fillCoordList doc data ann.fields

/-- The fields re-dispatched to coordinate placement under native mode:
`annotation.fields.filter(f => !f.nativeFieldId)` (render.js line 319). -/
def nonNativeFields (ann : AnnDoc) : List FieldDef :=
  ann.fields.filter (fun f => ! hasNativeB f)

/-- The value returned by `render` is a JS object literal; its keys are
modelled positionally, so that which counters the caller receives is
part of the model: `{filledCount, fallbackCount}` in native mode,
`{filledCount}` in coordinate mode. -/
structure RenderOutput where
  result : List (String × Nat)
  nativeOps : List NativeOp
  drawOps : List DrawOp
  warnings : List String
deriving DecidableEq

/-- `render(pdfPath, annotationPath, dataPath, outputPath, options)` from
render.js lines 289-337, with file/PDF I/O (excluded collaborators)
replaced by already-parsed structures.  Mode selection:
`options.useNativeFields !== false && annotation.fields.some(f =>
f.nativeFieldId)`.  In native mode a positive fallback count triggers a
second, coordinate pass over exactly the fields lacking `nativeFieldId`;
the returned object gains no other keys afterwards (in particular no
error counter exists anywhere in `render`). -/
def render (doc : PdfDoc) (ann : AnnDoc) (data : JVal) (useNativeFieldsOpt : Option Bool) : RenderOutput :=
  if ! (useNativeFieldsOpt == some false) && ann.fields.any hasNativeB then
    let nat := fillWithNativeFields doc.formFields ann data
    if nat.fallbackCount > 0 then
      let coord := fillWithCoordinates doc { fields := nonNativeFields ann } data
      { result := [("filledCount", nat.filledCount + coord.filledCount),
                   ("fallbackCount", nat.fallbackCount)],
        nativeOps := nat.ops, drawOps := coord.ops,
        warnings := nat.warnings ++ coord.warnings }
    else
      { result := [("filledCount", nat.filledCount), ("fallbackCount", nat.fallbackCount)],
        nativeOps := nat.ops, drawOps := [], warnings := nat.warnings }
  else
    let coord := fillWithCoordinates doc ann data
    { result := [("filledCount", coord.filledCount)],
      nativeOps := [], drawOps := coord.ops, warnings := coord.warnings }

/-- Pointwise combination of two native-pass results: counters add,
effect traces concatenate. -/
def NativeResult.merge (a b : NativeResult) : NativeResult :=
  { filledCount := a.filledCount + b.filledCount,
    fallbackCount := a.fallbackCount + b.fallbackCount,
    ops := a.ops ++ b.ops,
    warnings := a.warnings ++ b.warnings }

/-- Whether a native op is the `uncheck` mutation. -/
def NativeOp.isUncheck : NativeOp → Bool
  | NativeOp.uncheck _ => true
  | _ => false

/-- End-to-end sample (spec §8): one currency field bound to
`income.total`, right-aligned, no native identifier. -/
def sampleCurrencyField : FieldDef :=
  { id := "line1", type := "currency", page := 1,
    position := { x := 400, y := 300, width := 100, height := 12 },
    binding := { path := "income.total" },
    format := some { align := some "right" } }

/-- Annotation of the end-to-end currency sample. -/
def sampleCurrencyAnn : AnnDoc :=
  { fields := [sampleCurrencyField] }

/-- Data document of the end-to-end currency sample
(`{income:{total:57890.5}}`). -/
def sampleCurrencyData : JVal :=
  JVal.obj [("income", JVal.obj [("total", JVal.num (mkRat 115781 2))])]

/-- A one-page target document without interactive fields, abstract in
its text-measuring function. -/
def plainDoc (w : String → ℚ → ℚ) : PdfDoc :=
  { numPages := 1, widthOf := w, formFields := [] }

/-- A field whose `nativeFieldId` does not resolve on the sample form. -/
def sampleBrokenNativeField : FieldDef :=
  { id := "f1", type := "text", binding := { path := "a" }, nativeFieldId := some "missing" }

/-- A field whose `nativeFieldId` resolves to a text field of the sample
form. -/
def sampleGoodNativeField : FieldDef :=
  { id := "f2", type := "text", binding := { path := "b" }, nativeFieldId := some "native2" }

/-- Annotation pairing the broken native field with a following good
one. -/
def sampleNativeAnn : AnnDoc :=
  { fields := [sampleBrokenNativeField, sampleGoodNativeField] }

/-- Data for the native sample. -/
def sampleNativeData : JVal :=
  JVal.obj [("a", JVal.str "x".data), ("b", JVal.str "y".data)]

/-- Target document for the native sample: only `native2` exists. -/
def sampleNativeDoc : PdfDoc :=
  { numPages := 1, widthOf := fun _ _ => 0, formFields := [("native2", NKind.text)] }

/-- The wildcard sample data `{a:[{b:1},{b:2},{}]}` (spec §8). -/
def sampleWildcardData : JVal :=
  JVal.obj [("a", JVal.arr [JVal.obj [("b", JVal.num 1)], JVal.obj [("b", JVal.num 2)], JVal.obj []])]

/-- A checkbox field declaring a native identifier. -/
def sampleCheckboxField : FieldDef :=
  { id := "cb", type := "checkbox", binding := { path := "flag" }, nativeFieldId := some "CB1" }

/-- Data setting the sample checkbox's bound flag. -/
def sampleFlagData : JVal :=
  JVal.obj [("flag", JVal.bool true)]

/-- The draw operation the end-to-end currency sample produces, for a
given measured text width. -/
def sampleCurrencyOp (tw : ℚ) : DrawOp :=
  { page := 0, text := "57,890.50", x := qSub (qSub (qAdd 400 100) tw) 2,
    y := qAdd 300 (qDivN (qSub 12 10) 2), size := 10 }

/-- The full render outcome of the end-to-end currency sample, for a
given measured text width. -/
def sampleRenderExpected (tw : ℚ) : RenderOutput :=
  { result := [("filledCount", 1)], nativeOps := [],
    drawOps := [sampleCurrencyOp tw], warnings := [] }

/-- A `[*]`-split never yields the empty part list. -/
theorem splitWC_ne_nil (s : List Char) : splitWC s ≠ [] := by
  induction s using splitWC.induct with
  | case1 => simp [splitWC]
  | case2 rest ih => simp [splitWC]
  | case3 c rest h heq ih => exact absurd heq ih
  | case4 c rest h q qs heq ih => simp [splitWC, heq]

/-- The head part of a `[*]`-split is an initial run of the input. -/
theorem splitWC_head_prefix : ∀ {s h t}, splitWC s = h :: t → h <+: s := by
  intro s
  induction s using splitWC.induct with
  | case1 =>
      intro h t he
      simp only [splitWC] at he
      cases he
      exact List.nil_prefix
  | case2 rest ih =>
      intro h t he
      simp only [splitWC] at he
      cases he
      exact List.nil_prefix
  | case3 c rest hm heq ih => exact absurd heq (splitWC_ne_nil rest)
  | case4 c rest hm q qs heq ih =>
      intro h t he
      simp only [splitWC, heq] at he
      cases he
      exact List.cons_prefix_cons.mpr ⟨rfl, ih heq⟩

/-- Every part of a `[*]`-split is itself marker-free: its own split is
the singleton of itself.  This certifies the two-level formulation of
`getNestedValueL`: each recursive call of the source's `getNestedValue`
receives such a part and therefore takes the non-wildcard branch. -/
theorem splitWC_mem_simple : ∀ {s x}, x ∈ splitWC s → splitWC x = [x] := by
  intro s
  induction s using splitWC.induct with
  | case1 =>
      intro x hx
      simp only [splitWC, List.mem_singleton] at hx
      simp [hx, splitWC]
  | case2 rest ih =>
      intro x hx
      simp only [splitWC, List.mem_cons] at hx
      rcases hx with rfl | hx
      · simp [splitWC]
      · exact ih hx
  | case3 c rest hm heq ih => exact absurd heq (splitWC_ne_nil rest)
  | case4 c rest hm q qs heq ih =>
      intro x hx
      simp only [splitWC, heq, List.mem_cons] at hx
      rcases hx with rfl | hx
      · have hq : splitWC q = [q] := ih (heq ▸ List.mem_cons_self q qs)
        have hpre : q <+: rest := splitWC_head_prefix heq
        by_cases hshape : ∃ y, c :: q = '[' :: '*' :: ']' :: y
        · obtain ⟨y, hy⟩ := hshape
          injection hy with hc hqy
          obtain ⟨w, hw⟩ := hpre
          exact absurd (by rw [← hw, hqy]; rfl) (fun hr => hm (y ++ w) hc hr)
        · rw [splitWC.eq_def]
          split
          · rename_i hnil
            cases hnil
          · rename_i y hy
            exact absurd ⟨y, hy⟩ hshape
          · rename_i c2 rest2 hm2 heq2
            injection heq2 with h1 h2
            subst h1
            subst h2
            rw [hq]
      · exact ih (by rw [heq]; exact List.mem_cons_of_mem q hx)

/-- Dropping the head of a marker-free string leaves it marker-free. -/
theorem splitWC_cons_simple {c : Char} {t : List Char} (h : splitWC (c :: t) = [c :: t]) :
    splitWC t = [t] := by
  rw [splitWC.eq_def] at h
  split at h
  · rename_i hnil
    cases hnil
  · injection h with ha hb
    cases ha
  · rename_i c2 rest2 hm2 heq2
    injection heq2 with h1 h2
    subst h1
    subst h2
    rcases hs : splitWC t with _ | ⟨p, ps⟩
    · exact absurd hs (splitWC_ne_nil t)
    · rw [hs] at h
      injection h with h3 h4
      injection h3 with h5 h6
      rw [h4, h6]

/-- Stripping the leading dot of a marker-free remainder leaves it
marker-free. -/
theorem stripDot_simple {r : List Char} (h : splitWC r = [r]) :
    splitWC (stripDot r) = [stripDot r] := by
  rcases r with _ | ⟨c, t⟩
  · simpa [stripDot] using h
  · by_cases hc : c = '.'
    · subst hc
      simpa [stripDot] using splitWC_cons_simple h
    · simpa [stripDot, hc] using h

/-- On a marker-free path the resolver coincides with its non-wildcard
branch. -/
theorem getNested_simple_eq {q : List Char} (h : splitWC q = [q]) (o d : JVal) :
    getNestedValueL o q d = getNestedValueSimple o q d := by
  by_cases hq : q = []
  · subst hq
    simp [getNestedValueL, getNestedValueSimple]
  · simp only [getNestedValueL, if_neg hq, h]

/-- The key walk returns the default as soon as a null/undefined value is
reached with keys still remaining, wherever that happens. -/
theorem walkKeys_missing : ∀ (ks : List (List Char)) (v : JVal) (k : List Char)
    (ks2 : List (List Char)) (d : JVal),
    isNullish (List.foldl getProp v ks) = true →
    walkKeys v (ks ++ k :: ks2) d = d := by
  intro ks
  induction ks with
  | nil =>
      intro v k ks2 d h
      simp only [List.foldl_nil] at h
      simp [walkKeys, h]
  | cons k0 ks ih =>
      intro v k ks2 d h
      simp only [List.foldl_cons] at h
      by_cases hv : isNullish v
      · simp [walkKeys, hv]
      · simp only [List.cons_append, walkKeys, hv, if_neg]
        exact ih (getProp v k0) k ks2 d h

/-- A rational equals its numerator divided by its denominator, in
product form. -/
theorem num_eq_mul_den (a : ℚ) : (a.num : ℚ) = a * a.den := by
  have h := Rat.num_div_den a
  rwa [div_eq_iff (Nat.cast_ne_zero.mpr a.den_nz)] at h

/-- `qAdd` is rational addition (certification of the `mkRat` form). -/
theorem qAdd_eq_add (a b : ℚ) : qAdd a b = a + b := by
  rw [qAdd, Rat.mkRat_eq_div]
  push_cast
  rw [num_eq_mul_den a, num_eq_mul_den b,
    div_eq_iff (mul_ne_zero (Nat.cast_ne_zero.mpr a.den_nz) (Nat.cast_ne_zero.mpr b.den_nz))]
  ring

/-- `qMul` is rational multiplication. -/
theorem qMul_eq_mul (a b : ℚ) : qMul a b = a * b := by
  rw [qMul, Rat.mkRat_eq_div]
  push_cast
  rw [num_eq_mul_den a, num_eq_mul_den b,
    div_eq_iff (mul_ne_zero (Nat.cast_ne_zero.mpr a.den_nz) (Nat.cast_ne_zero.mpr b.den_nz))]
  ring

/-- `qSub` is rational subtraction. -/
theorem qSub_eq_sub (a b : ℚ) : qSub a b = a - b := by
  rw [qSub, qAdd_eq_add]
  ring

/-- `natToQ` is the natural-number cast. -/
theorem natToQ_eq_cast (n : Nat) : natToQ n = (n : ℚ) := by
  rw [natToQ, Rat.mkRat_eq_div]
  push_cast
  simp

/-- `pow10` is `10 ^ d`. -/
theorem pow10_eq_pow (d : Nat) : pow10 d = (10 : ℚ) ^ d := by
  rw [pow10, natToQ_eq_cast]
  push_cast
  ring

/-- `qDivN` is division by a positive natural constant. -/
theorem qDivN_eq_div (q : ℚ) (n : Nat) (h : n ≠ 0) : qDivN q n = q / n := by
  rw [qDivN, Rat.mkRat_eq_div]
  push_cast
  rw [num_eq_mul_den q,
    div_eq_iff (mul_ne_zero (Nat.cast_ne_zero.mpr q.den_nz) (Nat.cast_ne_zero.mpr h))]
  field_simp
  rw [num_eq_mul_den q]
  ring

/-- `emptyNative` is a left identity of `merge`. -/
theorem merge_empty_left (b : NativeResult) : emptyNative.merge b = b := by
  simp [NativeResult.merge, emptyNative]

/-- `emptyNative` is a right identity of `merge`. -/
theorem merge_empty_right (a : NativeResult) : a.merge emptyNative = a := by
  simp [NativeResult.merge, emptyNative]

/-- `merge` is associative. -/
theorem merge_assoc (a b c : NativeResult) : (a.merge b).merge c = a.merge (b.merge c) := by
  simp [NativeResult.merge, Nat.add_assoc]

/-- One native-pass iteration only appends to the accumulator: it equals
the accumulator merged with the iteration's own contribution. -/
theorem processNativeField_delta (form : List (String × NKind)) (data : JVal)
    (acc : NativeResult) (f : FieldDef) :
    processNativeField form data acc f = acc.merge (processNativeField form data emptyNative f) := by
  unfold processNativeField
  dsimp only
  repeat' split
  all_goals simp [NativeResult.merge, emptyNative]

/-- The native-pass fold from any accumulator is that accumulator merged
with the fold from the empty one. -/
theorem fillNativeFold_merge (form : List (String × NKind)) (data : JVal) :
    ∀ (fs : List FieldDef) (acc : NativeResult),
      fs.foldl (processNativeField form data) acc = acc.merge (fillNativeList form data fs) := by
  intro fs
  induction fs with
  | nil => intro acc; simp [fillNativeList, merge_empty_right]
  | cons f fs ih =>
      intro acc
      have h1 : fillNativeList form data (f :: fs) =
          (processNativeField form data emptyNative f).merge (fillNativeList form data fs) := by
        simp only [fillNativeList, List.foldl_cons]
        rw [ih (processNativeField form data emptyNative f)]
        rfl
      simp only [List.foldl_cons]
      rw [ih (processNativeField form data acc f), h1,
        processNativeField_delta form data acc f, merge_assoc]

/-- Processing a concatenation of field lists merges the two passes: a
per-field failure inside the first part leaves the second part's
processing untouched. -/
theorem fillNativeList_append (form : List (String × NKind)) (data : JVal)
    (fs1 fs2 : List FieldDef) :
    fillNativeList form data (fs1 ++ fs2) =
      (fillNativeList form data fs1).merge (fillNativeList form data fs2) := by
  unfold fillNativeList
  rw [List.foldl_append]
  exact fillNativeFold_merge form data fs2 (List.foldl (processNativeField form data) emptyNative fs1)

theorem isEmptyInput_parse_none {v : JVal} (h : isEmptyInput v = true) : jsParseFloatVal v = none := by
  cases v with
  | null => rfl
  | undef => rfl
  | str s =>
      cases s with
      | nil => rfl
      | cons c cs => simp [isEmptyInput] at h
  | bool b => simp [isEmptyInput] at h
  | num q => simp [isEmptyInput] at h
  | arr xs => simp [isEmptyInput] at h
  | obj kvs => simp [isEmptyInput] at h

/-- C3: a currency-typed input parsing to exactly zero formats to
"0.00" in the generic renderer under default options (no
zero-suppression), while the 1040-specific pipeline's formatCurrency
suppresses it to the empty string; and 1234.5 formats to "1,234.50"
under default options in the generic renderer. -/
theorem currency_zero_policy :
    (∀ (f : FieldDef) (v : JVal), f.type = "currency" → f.format = none →
      jsParseFloatVal v = some 0 → formatValue v f = JVal.str "0.00".data) ∧
    (∀ v : JVal, jsParseFloatVal v = some 0 → formatCurrency v = []) ∧
    formatValue (JVal.num (mkRat 2469 2)) { type := "currency" } = JVal.str "1,234.50".data := by
  refine ⟨?_, ?_, rfl⟩
  · intro f v htype hformat hparse
    have he : isEmptyInput v = false := by
      by_contra hc
      rw [isEmptyInput_parse_none (by simpa using hc)] at hparse
      cases hparse
    simp only [formatValue, he, Bool.false_eq_true, if_false, htype, if_true, hparse,
      fmtOf, hformat, Option.getD]
    rfl
  · intro v hparse
    have he : isEmptyInput v = false := by
      by_contra hc
      rw [isEmptyInput_parse_none (by simpa using hc)] at hparse
      cases hparse
    simp only [formatCurrency, he, Bool.false_eq_true, if_false, hparse]
    rfl

theorem currency_zero_policy_witness :
    formatValue (JVal.num 0) { type := "currency" } = JVal.str "0.00".data ∧
    formatCurrency (JVal.num 0) = [] := by
  exact ⟨currency_zero_policy.1 { type := "currency" } (JVal.num 0) rfl rfl rfl,
    currency_zero_policy.2.1 (JVal.num 0) rfl⟩

/-- C6: the Condition Evaluator returns true when the expression is
absent, and returns true when the expression is malformed (none of the
operators ===, ==, !==, != matched), so a field with an unparseable
condition is always active and never silently skipped. -/
theorem condition_absent_or_malformed_true :
    (∀ data : JVal, evaluateCondition none data = true) ∧
    (∀ (c : String) (data : JVal), matchCond c.data = none →
      evaluateCondition (some c) data = true) := by
  refine ⟨fun _ => rfl, ?_⟩
  intro c data hm
  by_cases hc : c = ""
  · simp [evaluateCondition, hc]
  · simp [evaluateCondition, hc, hm]

theorem condition_absent_or_malformed_true_witness :
    evaluateCondition none (JVal.obj []) = true ∧
    evaluateCondition (some "income.total >= 5") (JVal.obj []) = true :=
  ⟨condition_absent_or_malformed_true.1 (JVal.obj []),
   condition_absent_or_malformed_true.2 "income.total >= 5" (JVal.obj []) rfl⟩

/-- C5: a Path Resolver query (on a wildcard-free path) that encounters
a missing — undefined or null — intermediate value before the path is
exhausted returns the supplied default, or null when none is supplied;
the resolver is a total function, so it never raises. -/
theorem resolver_missing_intermediate_default :
    ∀ (data : JVal) (p : String) (d : JVal) (ks : List (List Char)) (k : List Char)
      (ks2 : List (List Char)),
      splitWC p.data = [p.data] →
      splitDot (replaceIdx p.data) = ks ++ k :: ks2 →
      isNullish (List.foldl getProp data ks) = true →
      getNestedValueL data p.data d = d ∧
      getNestedValueL data p.data JVal.null = JVal.null := by
  intro data p d ks k ks2 hsingle hkeys hmiss
  by_cases hp : p.data = []
  · rw [hp]
    exact ⟨by simp [getNestedValueL], by simp [getNestedValueL]⟩
  · constructor
    · rw [getNested_simple_eq hsingle, getNestedValueSimple, if_neg hp, hkeys]
      exact walkKeys_missing ks data k ks2 d hmiss
    · rw [getNested_simple_eq hsingle, getNestedValueSimple, if_neg hp, hkeys]
      exact walkKeys_missing ks data k ks2 JVal.null hmiss

theorem resolver_missing_intermediate_default_witness :
    getNestedValueL (JVal.obj []) "a.b.c".data (JVal.str "D".data) = JVal.str "D".data ∧
    getNestedValueL (JVal.obj []) "a.b.c".data JVal.null = JVal.null := by
  have h := resolver_missing_intermediate_default (JVal.obj []) "a.b.c" (JVal.str "D".data)
    [['a']] ['b'] [['c']] rfl rfl rfl
  exact h

/-- The key walk returns the default whenever the bare property fold
ends null/undefined — `getProp` of a null/undefined value is `undefined`,
so this covers a missing intermediate as well as a missing final value. -/
theorem walkKeys_absent : ∀ (ks : List (List Char)) (v d : JVal),
    isNullish (List.foldl getProp v ks) = true → walkKeys v ks d = d := by
  intro ks
  induction ks with
  | nil =>
      intro v d h
      simp only [List.foldl_nil] at h
      simp [walkKeys, jsCoalesce, h]
  | cons k0 ks ih =>
      intro v d h
      simp only [List.foldl_cons] at h
      by_cases hv : isNullish v
      · simp [walkKeys, hv]
      · simp only [walkKeys, hv, Bool.false_eq_true, if_false]
        exact ih (getProp v k0) d h

/-- C4: resolving a path whose single wildcard segment has a remainder
maps that remainder over every element of the sequence found at the
wildcard position (inner default null) and returns the sequence of
per-element results; with no remainder it returns the sequence itself;
in particular "a[*].b" against {a:[{b:1},{b:2},{}]} yields [1,2,null]. -/
theorem wildcard_maps_remainder :
    (∀ (data : JVal) (p : String) (a r : List Char) (d : JVal) (xs : List JVal),
      splitWC p.data = [a, r] →
      getNestedValueL data a (JVal.arr []) = JVal.arr xs →
      (stripDot r ≠ [] →
        getNestedValueL data p.data d =
          JVal.arr (xs.map fun item => getNestedValueL item (stripDot r) JVal.null)) ∧
      (stripDot r = [] → getNestedValueL data p.data d = JVal.arr xs)) ∧
    getNestedValue sampleWildcardData "a[*].b" JVal.null =
      JVal.arr [JVal.num 1, JVal.num 2, JVal.null] := by
  refine ⟨?_, rfl⟩
  intro data p a r d xs hsplit hxs
  have ha : splitWC a = [a] := splitWC_mem_simple (by rw [hsplit]; simp)
  have hr : splitWC r = [r] := splitWC_mem_simple (by rw [hsplit]; simp)
  have hsr := stripDot_simple hr
  have hp : p.data ≠ [] := by
    intro h0
    rw [h0] at hsplit
    simp [splitWC] at hsplit
  have hxs' : getNestedValueSimple data a (JVal.arr []) = JVal.arr xs := by
    rw [← getNested_simple_eq ha]
    exact hxs
  constructor
  · intro hne
    have hmap : (xs.map fun item => getNestedValueL item (stripDot r) JVal.null) =
        xs.map fun item => getNestedValueSimple item (stripDot r) JVal.null :=
      List.map_congr_left fun item _ => getNested_simple_eq hsr item JVal.null
    rw [hmap]
    simp only [getNestedValueL, if_neg hp, hsplit, hxs', if_pos hne]
  · intro heq
    simp only [getNestedValueL, if_neg hp, hsplit, hxs', heq]
    simp

theorem wildcard_maps_remainder_witness :
    getNestedValueL sampleWildcardData "a[*].b".data JVal.null =
      JVal.arr [JVal.num 1, JVal.num 2, JVal.null] ∧
    getNestedValueL sampleWildcardData "a[*]".data JVal.null =
      JVal.arr [JVal.obj [("b", JVal.num 1)], JVal.obj [("b", JVal.num 2)], JVal.obj []] := by
  constructor
  · have h := (wildcard_maps_remainder.1 sampleWildcardData "a[*].b" "a".data ".b".data
      JVal.null [JVal.obj [("b", JVal.num 1)], JVal.obj [("b", JVal.num 2)], JVal.obj []]
      rfl rfl).1 (by decide)
    rw [h]
    rfl
  · have h := (wildcard_maps_remainder.1 sampleWildcardData "a[*]" "a".data []
      JVal.null [JVal.obj [("b", JVal.num 1)], JVal.obj [("b", JVal.num 2)], JVal.obj []]
      rfl rfl).2 rfl
    exact h

/-- C10: if the value at the prefix before the wildcard segment is
present but not a sequence, the query returns the supplied default; if
the prefix is absent, the resolver's internal default of an empty
sequence makes the query return the empty sequence [] rather than the
caller's default. -/
theorem wildcard_edge_defaults :
    (∀ (data : JVal) (p : String) (a r : List Char) (d : JVal),
      splitWC p.data = [a, r] →
      (∀ xs, getNestedValueL data a (JVal.arr []) ≠ JVal.arr xs) →
      getNestedValueL data p.data d = d) ∧
    (∀ (data : JVal) (p : String) (a r : List Char) (d : JVal),
      splitWC p.data = [a, r] →
      a ≠ [] →
      isNullish (List.foldl getProp data (splitDot (replaceIdx a))) = true →
      getNestedValueL data p.data d = JVal.arr []) := by
  constructor
  · intro data p a r d hsplit hne
    have ha : splitWC a = [a] := splitWC_mem_simple (by rw [hsplit]; simp)
    have hp : p.data ≠ [] := by
      intro h0
      rw [h0] at hsplit
      simp [splitWC] at hsplit
    rcases hv : getNestedValueSimple data a (JVal.arr []) with _ | _ | b | q | s | xs | kvs
    · simp only [getNestedValueL, if_neg hp, hsplit, hv]
    · simp only [getNestedValueL, if_neg hp, hsplit, hv]
    · simp only [getNestedValueL, if_neg hp, hsplit, hv]
    · simp only [getNestedValueL, if_neg hp, hsplit, hv]
    · simp only [getNestedValueL, if_neg hp, hsplit, hv]
    · exact absurd (by rw [getNested_simple_eq ha]; exact hv) (hne xs)
    · simp only [getNestedValueL, if_neg hp, hsplit, hv]
  · intro data p a r d hsplit hane hmiss
    have hp : p.data ≠ [] := by
      intro h0
      rw [h0] at hsplit
      simp [splitWC] at hsplit
    have hv : getNestedValueSimple data a (JVal.arr []) = JVal.arr [] := by
      rw [getNestedValueSimple, if_neg hane]
      exact walkKeys_absent (splitDot (replaceIdx a)) data (JVal.arr []) hmiss
    simp only [getNestedValueL, if_neg hp, hsplit, hv]
    simp

theorem wildcard_edge_defaults_witness :
    getNestedValueL (JVal.obj [("a", JVal.num 5)]) "a[*].b".data (JVal.str "X".data) =
      JVal.str "X".data ∧
    getNestedValueL (JVal.obj []) "a[*].b".data (JVal.str "X".data) = JVal.arr [] := by
  constructor
  · exact wildcard_edge_defaults.1 (JVal.obj [("a", JVal.num 5)]) "a[*].b" "a".data ".b".data
      (JVal.str "X".data) rfl (by intro xs h; cases h)
  · exact wildcard_edge_defaults.2 (JVal.obj []) "a[*].b" "a".data ".b".data
      (JVal.str "X".data) rfl (by decide) rfl

/-- C2 counterexample: the Value Formatter maps an absent (undefined or
null) checkbox value to the empty string, not to the boolean false — the
early empty-input guard fires before the checkbox branch. -/
theorem formatValue_checkbox_absent_cex :
    formatValue JVal.undef { type := "checkbox" } ≠ JVal.bool false ∧
    formatValue JVal.undef { type := "checkbox" } = JVal.str [] ∧
    formatValue JVal.null { type := "checkbox" } = JVal.str [] := by
  refine ⟨?_, rfl, rfl⟩
  intro h
  have h2 : JVal.str [] = JVal.bool false := h
  cases h2

/-- C2 (amended): empty/absent input (null, undefined, empty string)
formats to the empty string for every field type, checkbox included; a
checkbox field formats a present, non-empty value to its boolean
coercion, so the explicit boolean false does format to false. -/
theorem formatValue_empty_handling :
    ∀ (f : FieldDef) (v : JVal),
      (isEmptyInput v = true → formatValue v f = JVal.str []) ∧
      (f.type = "checkbox" → isEmptyInput v = false →
        formatValue v f = JVal.bool (jsTruthy v)) := by
  intro f v
  constructor
  · intro h
    simp [formatValue, h]
  · intro hcb h
    simp [formatValue, h, hcb]

theorem formatValue_empty_handling_witness :
    formatValue JVal.undef { type := "text" } = JVal.str [] ∧
    formatValue (JVal.bool false) { type := "checkbox" } = JVal.bool false :=
  ⟨(formatValue_empty_handling { type := "text" } JVal.undef).1 rfl,
   (formatValue_empty_handling { type := "checkbox" } (JVal.bool false)).2 rfl rfl⟩

/-- The native pass appends per field either nothing, one check, one
setText, or one warning; in particular it never issues `uncheck`. -/
theorem processNative_ops_shape (form : List (String × NKind)) (data : JVal)
    (acc : NativeResult) (f : FieldDef) :
    (processNativeField form data acc f).ops = acc.ops ∨
    (processNativeField form data acc f).ops = acc.ops ++ [NativeOp.check (nativeIdOf f)] ∨
    ∃ v, (processNativeField form data acc f).ops = acc.ops ++ [NativeOp.setText (nativeIdOf f) v] := by
  unfold processNativeField
  dsimp only
  repeat' split
  all_goals simp

/-- C8: native checkbox placement never unchecks a target checkbox —
for a checkbox field the check operation is issued only when the
formatted value is strictly true (the per-field contribution is at most
one check op), false or absent values cause no placement operation at
all, and no uncheck operation is ever emitted by the native pass. -/
theorem native_checkbox_never_unchecks :
    (∀ (form : List (String × NKind)) (data : JVal) (acc : NativeResult) (f : FieldDef),
      f.type = "checkbox" →
      (isTrueB (resolveFormatted data f) = false →
        (processNativeField form data acc f).ops = acc.ops) ∧
      ((processNativeField form data acc f).ops = acc.ops ∨
        (processNativeField form data acc f).ops = acc.ops ++ [NativeOp.check (nativeIdOf f)])) ∧
    (∀ (form : List (String × NKind)) (ann : AnnDoc) (data : JVal),
      ∀ op ∈ (fillWithNativeFields form ann data).ops, op.isUncheck = false) := by
  constructor
  · intro form data acc f hcb
    constructor
    · intro hfalse
      unfold processNativeField
      dsimp only
      repeat' split
      all_goals simp_all
    · rcases processNative_ops_shape form data acc f with h | h | ⟨v, h⟩
      · exact Or.inl h
      · exact Or.inr h
      · left
        unfold processNativeField at h ⊢
        dsimp only at h ⊢
        repeat' split at h
        all_goals simp_all
  · intro form ann data
    unfold fillWithNativeFields
    generalize ann.fields = fs
    induction fs with
    | nil =>
        intro op hop
        simp [fillNativeList, emptyNative] at hop
    | cons f fs ih =>
        intro op hop
        have hsplit : fillNativeList form data (f :: fs) =
            (processNativeField form data emptyNative f).merge (fillNativeList form data fs) := by
          simp only [fillNativeList, List.foldl_cons]
          rw [fillNativeFold_merge form data fs (processNativeField form data emptyNative f)]
          rfl
        rw [hsplit] at hop
        simp only [NativeResult.merge, List.mem_append] at hop
        rcases hop with hop | hop
        · rcases processNative_ops_shape form data emptyNative f with h | h | ⟨v, h⟩
          all_goals rw [h] at hop
          · simp [emptyNative] at hop
          · simp [emptyNative] at hop
            rw [hop]
            rfl
          · simp [emptyNative] at hop
            rw [hop]
            rfl
        · exact ih op hop

theorem native_checkbox_never_unchecks_witness :
    (processNativeField [("CB1", NKind.checkbox)] (JVal.obj [("flag", JVal.bool false)])
      emptyNative sampleCheckboxField).ops = emptyNative.ops ∧
    (∀ op ∈ (fillWithNativeFields [("CB1", NKind.checkbox)] { fields := [sampleCheckboxField] }
      sampleFlagData).ops, op.isUncheck = false) :=
  ⟨(native_checkbox_never_unchecks.1 [("CB1", NKind.checkbox)]
      (JVal.obj [("flag", JVal.bool false)]) emptyNative sampleCheckboxField rfl).1 rfl,
   native_checkbox_never_unchecks.2 [("CB1", NKind.checkbox)]
      { fields := [sampleCheckboxField] } sampleFlagData⟩

/-- C7: no field is placed twice in one render invocation — the
second-pass list contains exactly the fields lacking a truthy
nativeFieldId (both inclusions), a field without nativeFieldId produces
no native op and no native fill, and under native mode with fallbacks
the drawn output is exactly the coordinate pass over that restricted
subset. -/
theorem fields_never_placed_twice :
    (∀ (ann : AnnDoc) (f : FieldDef), f ∈ nonNativeFields ann → hasNativeB f = false) ∧
    (∀ (ann : AnnDoc) (f : FieldDef), f ∈ ann.fields → hasNativeB f = false →
      f ∈ nonNativeFields ann) ∧
    (∀ (form : List (String × NKind)) (data : JVal) (acc : NativeResult) (f : FieldDef),
      hasNativeB f = false →
      (processNativeField form data acc f).ops = acc.ops ∧
      (processNativeField form data acc f).filledCount = acc.filledCount) ∧
    (∀ (doc : PdfDoc) (ann : AnnDoc) (data : JVal) (opts : Option Bool),
      (! (opts == some false) && ann.fields.any hasNativeB) = true →
      (fillWithNativeFields doc.formFields ann data).fallbackCount > 0 →
      (render doc ann data opts).drawOps =
        (fillWithCoordinates doc { fields := nonNativeFields ann } data).ops) := by
  refine ⟨?_, ?_, ?_, ?_⟩
  · intro ann f hf
    have := List.of_mem_filter hf
    simpa using this
  · intro ann f hf hn
    exact List.mem_filter.mpr ⟨hf, by simp [hn]⟩
  · intro form data acc f hn
    unfold processNativeField
    dsimp only
    split
    · exact ⟨rfl, rfl⟩
    · rw [if_pos (by simp [hn])]
      exact ⟨rfl, rfl⟩
  · intro doc ann data opts hmode hfb
    unfold render
    rw [if_pos hmode, if_pos hfb]

theorem fields_never_placed_twice_witness :
    (sampleCurrencyField ∈ nonNativeFields { fields := [sampleCurrencyField] } →
      hasNativeB sampleCurrencyField = false) ∧
    sampleCurrencyField ∈ nonNativeFields { fields := [sampleCurrencyField] } ∧
    (processNativeField [] sampleCurrencyData emptyNative sampleCurrencyField).ops =
      emptyNative.ops ∧
    (render sampleNativeDoc { fields := [sampleBrokenNativeField, sampleCurrencyField] }
        sampleNativeData none).drawOps =
      (fillWithCoordinates sampleNativeDoc
        { fields := nonNativeFields { fields := [sampleBrokenNativeField, sampleCurrencyField] } }
        sampleNativeData).ops :=
  ⟨fields_never_placed_twice.1 { fields := [sampleCurrencyField] } sampleCurrencyField,
   fields_never_placed_twice.2.1 { fields := [sampleCurrencyField] } sampleCurrencyField
     (by simp) rfl,
   (fields_never_placed_twice.2.2.1 [] sampleCurrencyData emptyNative sampleCurrencyField rfl).1,
   fields_never_placed_twice.2.2.2 sampleNativeDoc
     { fields := [sampleBrokenNativeField, sampleCurrencyField] } sampleNativeData none rfl
     (by decide)⟩

/-- C1 counterexample: in a render where the first field's native
identifier does not resolve (a warning is emitted and the remaining
field is still filled), the returned result object holds only
`filledCount` and `fallbackCount` — no `errorCount` key exists, so no
error counter is incremented or returned. -/
theorem render_errorCount_absent_cex :
    List.lookup "errorCount"
      (render sampleNativeDoc sampleNativeAnn sampleNativeData none).result = none ∧
    (render sampleNativeDoc sampleNativeAnn sampleNativeData none).warnings =
      [warnNative "missing"] ∧
    (render sampleNativeDoc sampleNativeAnn sampleNativeData none).result =
      [("filledCount", 1), ("fallbackCount", 0)] :=
  ⟨rfl, rfl, rfl⟩

/-- C1 (amended): a native placement failure (unresolvable identifier or
kind mismatch) is recoverable per-field — a warning is logged, the field
adds nothing to any counter or to the form mutations, and all remaining
fields still process (list processing splits across concatenation) —
but no error counter exists: the render entry point's result never
carries an `errorCount` key. -/
theorem native_failure_recoverable :
    (∀ (doc : PdfDoc) (ann : AnnDoc) (data : JVal) (opts : Option Bool),
      List.lookup "errorCount" (render doc ann data opts).result = none) ∧
    (∀ (form : List (String × NKind)) (data : JVal) (acc : NativeResult) (f : FieldDef),
      hasNativeB f = true →
      evaluateCondition f.binding.condition data = true →
      f.type ≠ "checkbox" →
      isEmptyStr (resolveFormatted data f) = false →
      lookupForm form (nativeIdOf f) ≠ some NKind.text →
      processNativeField form data acc f =
        { acc with warnings := acc.warnings ++ [warnNative (nativeIdOf f)] }) ∧
    (∀ (form : List (String × NKind)) (data : JVal) (acc : NativeResult) (f : FieldDef),
      hasNativeB f = true →
      evaluateCondition f.binding.condition data = true →
      f.type = "checkbox" →
      isTrueB (resolveFormatted data f) = true →
      lookupForm form (nativeIdOf f) ≠ some NKind.checkbox →
      processNativeField form data acc f =
        { acc with warnings := acc.warnings ++ [warnNative (nativeIdOf f)] }) ∧
    (∀ (form : List (String × NKind)) (data : JVal) (fs1 fs2 : List FieldDef),
      fillNativeList form data (fs1 ++ fs2) =
        (fillNativeList form data fs1).merge (fillNativeList form data fs2)) := by
  refine ⟨?_, ?_, ?_, fillNativeList_append⟩
  · intro doc ann data opts
    unfold render
    dsimp only
    repeat' split
    all_goals rfl
  · intro form data acc f hn hcond htype hempty hlook
    unfold processNativeField
    rw [if_neg (by simp [hcond]), if_neg (by simp [hn])]
    dsimp only
    rw [if_neg (by simp [hempty]), if_neg htype]
    rcases hl : lookupForm form (nativeIdOf f) with _ | k
    · rfl
    · cases k with
      | text => exact absurd hl hlook
      | checkbox => rfl
      | radio => rfl
      | dropdown => rfl
  · intro form data acc f hn hcond htype htrue hlook
    unfold processNativeField
    rw [if_neg (by simp [hcond]), if_neg (by simp [hn])]
    dsimp only
    rw [if_neg (by simp [htype]), if_pos htype, if_pos (by simp [htrue])]
    rcases hl : lookupForm form (nativeIdOf f) with _ | k
    · rfl
    · cases k with
      | checkbox => exact absurd hl hlook
      | text => rfl
      | radio => rfl
      | dropdown => rfl

theorem native_failure_recoverable_witness :
    List.lookup "errorCount"
      (render sampleNativeDoc sampleNativeAnn sampleNativeData none).result = none ∧
    processNativeField [("native2", NKind.text)] sampleNativeData emptyNative
        sampleBrokenNativeField =
      { emptyNative with warnings := emptyNative.warnings ++ [warnNative "missing"] } ∧
    processNativeField [] sampleFlagData emptyNative sampleCheckboxField =
      { emptyNative with warnings := emptyNative.warnings ++ [warnNative "CB1"] } ∧
    fillNativeList [("native2", NKind.text)] sampleNativeData
        ([sampleBrokenNativeField] ++ [sampleGoodNativeField]) =
      (fillNativeList [("native2", NKind.text)] sampleNativeData
        [sampleBrokenNativeField]).merge
      (fillNativeList [("native2", NKind.text)] sampleNativeData [sampleGoodNativeField]) :=
  ⟨native_failure_recoverable.1 sampleNativeDoc sampleNativeAnn sampleNativeData none,
   native_failure_recoverable.2.1 [("native2", NKind.text)] sampleNativeData emptyNative
     sampleBrokenNativeField rfl rfl (by decide) rfl (by decide),
   native_failure_recoverable.2.2.1 [] sampleFlagData emptyNative sampleCheckboxField
     rfl rfl rfl rfl (by decide),
   native_failure_recoverable.2.2.2 [("native2", NKind.text)] sampleNativeData
     [sampleBrokenNativeField] [sampleGoodNativeField]⟩

/-- C9 counterexample: the end-to-end currency render runs in
coordinate-only mode, whose result object is `{filledCount}` alone — it
reports neither `fallbackCount = 0` nor `errorCount = 0`, because
neither key exists. -/
theorem render_end_to_end_keys_cex :
    List.lookup "fallbackCount"
      (render (plainDoc (fun _ _ => 40)) sampleCurrencyAnn sampleCurrencyData none).result =
      none ∧
    List.lookup "errorCount"
      (render (plainDoc (fun _ _ => 40)) sampleCurrencyAnn sampleCurrencyData none).result =
      none ∧
    (render (plainDoc (fun _ _ => 40)) sampleCurrencyAnn sampleCurrencyData none).result =
      [("filledCount", 1)] :=
  ⟨rfl, rfl, rfl⟩

/-- C9 (amended): rendering the one-currency-field annotation against
`{income:{total:57890.5}}` draws exactly the string "57,890.50"
right-aligned in the declared rectangle (origin `x + width - textWidth -
2`, vertically centred) on the only page, and the result reports
`filledCount = 1` and nothing else: coordinate-only mode returns
`{filledCount}` with no `fallbackCount` or `errorCount` entries. -/
theorem render_end_to_end_currency :
    ∀ w : String → ℚ → ℚ,
      render (plainDoc w) sampleCurrencyAnn sampleCurrencyData none =
        sampleRenderExpected (w "57,890.50" 10) ∧
      qAdd 300 (qDivN (qSub 12 10) 2) = 301 ∧
      (∀ tw : ℚ, tw = w "57,890.50" 10 → 0 ≤ tw → tw ≤ 96 →
        400 ≤ qSub (qSub (qAdd 400 100) tw) 2 ∧
          qSub (qSub (qAdd 400 100) tw) 2 + tw ≤ 400 + 100) := by
  intro w
  refine ⟨rfl, rfl, ?_⟩
  intro tw htw h0 h96
  rw [qSub_eq_sub, qSub_eq_sub, qAdd_eq_add]
  constructor
  · linarith
  · linarith

theorem render_end_to_end_currency_witness :
    render (plainDoc (fun _ _ => 40)) sampleCurrencyAnn sampleCurrencyData none =
      sampleRenderExpected 40 ∧
    400 ≤ qSub (qSub (qAdd 400 100) (40 : ℚ)) 2 ∧
    qSub (qSub (qAdd 400 100) (40 : ℚ)) 2 + 40 ≤ 400 + 100 := by
  have h := render_end_to_end_currency (fun _ _ => 40)
  have h3 := h.2.2 40 rfl (by norm_num) (by norm_num)
  exact ⟨h.1, h3.1, h3.2⟩

/-- Sanity (spec §8): the `sum` transform over `[10, "20", null]` yields
30 — numeric strings parse, non-numeric elements contribute 0. -/
theorem sum_transform_sanity :
    applyTransform (JVal.arr [JVal.num 10, JVal.str "20".data, JVal.null]) (some "sum") =
      JVal.num 30 :=
  rfl

/-- Sanity (spec §8): `ssn` formatting normalizes both `"123-45-6789"`
and `123456789` to `"123-45-6789"`, and passes shorter digit strings
through unformatted. -/
theorem ssn_format_sanity :
    formatValue (JVal.str "123-45-6789".data) { type := "ssn" } =
      JVal.str "123-45-6789".data ∧
    formatValue (JVal.num 123456789) { type := "ssn" } = JVal.str "123-45-6789".data ∧
    formatValue (JVal.str "12345".data) { type := "ssn" } = JVal.str "12345".data :=
  ⟨rfl, rfl, rfl⟩

/-- Sanity (spec §8): the digital-assets condition is true against a true
flag, false against a false flag, and false against the empty document
(the path resolves to the condition default, which is not `true`). -/
theorem condition_eval_sanity :
    evaluateCondition (some "digitalAssets.hasActivity === true")
      (JVal.obj [("digitalAssets", JVal.obj [("hasActivity", JVal.bool true)])]) = true ∧
    evaluateCondition (some "digitalAssets.hasActivity === true")
      (JVal.obj [("digitalAssets", JVal.obj [("hasActivity", JVal.bool false)])]) = false ∧
    evaluateCondition (some "digitalAssets.hasActivity === true") (JVal.obj []) = false :=
  ⟨rfl, rfl, rfl⟩

/-- Sanity: a specific array index descends into the sequence, and an
out-of-range index falls back to the caller's default. -/
theorem index_resolution_sanity :
    getNestedValue sampleWildcardData "a[0].b" JVal.null = JVal.num 1 ∧
    getNestedValue sampleWildcardData "a[7].b" (JVal.str "D".data) = JVal.str "D".data :=
  ⟨rfl, rfl⟩
